import Mathlib

/-!
Verification development for the collector-registry / routing core of the
Lambda OTLP forwarder (`src/functions/forwarder/src/collectors.rs`).

The Rust module is shallowly embedded here:

* `RE` / `compileRE` / `RE.is_match` model the subset of the `regex` crate
  syntax that collector `exclude` patterns use (literals, `.`, `*`, `+`, `?`,
  alternation, grouping, simple character classes, punctuation escapes);
  unsupported constructs are conservatively rejected by `compileRE`.
* `Url` / `urlParse` / `Url.set_path` / `Url.toString` model the `url` crate
  for absolute `http`/`https` URLs of the shape
  `scheme://host[:port][/path][?query][#fragment]` (the shape collector
  endpoints take); parsing lowercases scheme and host, elides default ports,
  and normalizes an absent path to `/`, as `Url::parse` does.
* `Json` / `deserializeCollector` model `serde_json` deserialization of the
  `Collector` struct (missing/null optional fields, `deserialize_regex` for
  `exclude`, unknown fields ignored, duplicate fields rejected).
* The process-global `OnceLock<Arc<CollectorsCache>>` becomes explicit state
  of type `Option CollectorsCache` threaded through the operations;
  `onceLockSet` models `OnceLock::set` (fails, leaving the old value, when
  the cell is already filled).  `Collectors.init` takes the observed cell
  state at its `get` and at its `set` separately so that interleavings with
  concurrent initializers are expressible; `Instant::now` becomes an explicit
  `now : Nat` parameter, and the outcome of `fetch_collectors` /
  the Secrets Manager call is passed in as data.
* A Rust panic (`.expect`) is a distinct outcome from a returned `Err`:
  `Outcome` has `ok`, `err` and `panic` constructors.
-/

/-- Outcome of a Rust call that can return a value, return an error, or
panic; `panic` carries the panic message. -/
inductive Outcome (ε α : Type) where
  | ok (a : α)
  | err (e : ε)
  | panic (msg : String)
deriving DecidableEq, Repr

/-- True exactly when the outcome is a returned error value (a Rust
`Err`), as opposed to a success or a panic. -/
def Outcome.isReturnedErr : Outcome ε α → Bool
  | .err _ => true
  | _ => false

/-- One item of a regex character class: a single character or a range. -/
inductive ClsItem where
  | single (c : Char)
  | range (lo hi : Char)
deriving DecidableEq, Repr

/-- Regular expressions, modelling the subset of the `regex` crate syntax
used by collector `exclude` patterns. -/
inductive RE where
  | eps
  | fail
  | lit (c : Char)
  | dot
  | cls (neg : Bool) (items : List ClsItem)
  | seq (a b : RE)
  | alt (a b : RE)
  | star (a : RE)
deriving DecidableEq, Repr

/-- Whether the regex accepts the empty string. -/
def RE.nullable : RE → Bool
  | .eps => true
  | .fail => false
  | .lit _ => false
  | .dot => false
  | .cls _ _ => false
  | .seq a b => a.nullable && b.nullable
  | .alt a b => a.nullable || b.nullable
  | .star _ => true

/-- Whether a character class item matches a character. -/
def ClsItem.matches (c : Char) : ClsItem → Bool
  | .single d => c == d
  | .range lo hi => lo ≤ c && c ≤ hi

/-- Brzozowski derivative of a regex with respect to one character.  `.` does
not match a newline, as in the `regex` crate's default mode. -/
def RE.deriv : RE → Char → RE
  | .eps, _ => .fail
  | .fail, _ => .fail
  | .lit d, c => if c == d then .eps else .fail
  | .dot, c => if c == '\n' then .fail else .eps
  | .cls neg items, c =>
    if (items.any (ClsItem.matches c)) != neg then .eps else .fail
  | .seq a b, c =>
    if a.nullable then .alt (.seq (a.deriv c) b) (b.deriv c) else .seq (a.deriv c) b
  | .alt a b, c => .alt (a.deriv c) (b.deriv c)
  | .star a, c => .seq (a.deriv c) (.star a)

/-- Whether some prefix of the character list matches the regex. -/
def matchesPrefix : RE → List Char → Bool
  | re, [] => re.nullable
  | re, c :: cs => re.nullable || matchesPrefix (re.deriv c) cs

/-- Whether the regex matches anywhere in the character list. -/
def isMatchAux : RE → List Char → Bool
  | re, [] => re.nullable
  | re, c :: cs => matchesPrefix re (c :: cs) || isMatchAux re cs

/-- Unanchored match anywhere in the string, modelling `Regex::is_match`. -/
def RE.is_match (re : RE) (s : String) : Bool :=
  isMatchAux re s.data

/-- Characters the regex compiler treats as structural. -/
def regexSpecial (c : Char) : Bool :=
  c == '(' || c == ')' || c == '[' || c == ']' || c == '|' ||
  c == '*' || c == '+' || c == '?' || c == '.' || c == '\\' ||
  c == '^' || c == '$'

/-- Parse the body of a character class after `[` (and after an optional
`^`), up to the closing `]`.  Unclosed classes are invalid, matching
`Regex::new` rejecting the pattern. -/
def parseClsItems (fuel : Nat) (cs : List Char) :
    Option (List ClsItem × List Char) :=
  match fuel, cs with
  | 0, _ => none
  | _, [] => none
  | _ + 1, ']' :: rest => some ([], rest)
  | fuel + 1, '\\' :: c :: rest =>
    match parseClsItems fuel rest with
    | some (items, rest2) => some (ClsItem.single c :: items, rest2)
    | none => none
  | fuel + 1, c :: '-' :: d :: rest =>
    if d == ']' then
      match parseClsItems fuel (']' :: rest) with
      | some (items, rest2) =>
        some (ClsItem.single c :: ClsItem.single '-' :: items, rest2)
      | none => none
    else
      match parseClsItems fuel rest with
      | some (items, rest2) => some (ClsItem.range c d :: items, rest2)
      | none => none
  | fuel + 1, c :: rest =>
    match parseClsItems fuel rest with
    | some (items, rest2) => some (ClsItem.single c :: items, rest2)
    | none => none

/-- Apply trailing quantifiers (`*`, `+`, `?`) to an atom. -/
def applyQuants (fuel : Nat) (re : RE) (cs : List Char) : RE × List Char :=
  match fuel, cs with
  | 0, _ => (re, cs)
  | fuel + 1, '*' :: rest => applyQuants fuel (RE.star re) rest
  | fuel + 1, '+' :: rest => applyQuants fuel (RE.seq re (RE.star re)) rest
  | fuel + 1, '?' :: rest => applyQuants fuel (RE.alt RE.eps re) rest
  | _, _ => (re, cs)

mutual

/-- Parse one atom of a regex: a group, a class, `.`, an escape, or a
literal character. -/
def parseAtom (fuel : Nat) (cs : List Char) : Option (RE × List Char) :=
  match fuel, cs with
  | 0, _ => none
  | _, [] => none
  | fuel + 1, '(' :: rest =>
    match rest with
    | '?' :: _ => none
    | _ =>
      match parseAlt fuel rest with
      | some (re, ')' :: rest2) => some (re, rest2)
      | _ => none
  | fuel + 1, '[' :: rest =>
    match rest with
    | '^' :: rest1 =>
      match parseClsItems fuel rest1 with
      | some ([], _) => none
      | some (items, rest2) => some (RE.cls true items, rest2)
      | none => none
    | _ =>
      match parseClsItems fuel rest with
      | some ([], _) => none
      | some (items, rest2) => some (RE.cls false items, rest2)
      | none => none
  | _ + 1, '.' :: rest => some (RE.dot, rest)
  | _ + 1, '\\' :: c :: rest =>
    if c.isAlphanum then none else some (RE.lit c, rest)
  | _ + 1, '\\' :: [] => none
  | _ + 1, c :: rest =>
    if c == ')' || c == '|' || c == '*' || c == '+' || c == '?' ||
        c == '^' || c == '$' then none
    else some (RE.lit c, rest)

/-- Parse a (possibly empty) concatenation of quantified atoms, stopping at
`)` or `|` or the end of input. -/
def parseSeq (fuel : Nat) (cs : List Char) : Option (RE × List Char) :=
  match fuel, cs with
  | 0, _ => none
  | _, [] => some (RE.eps, [])
  | _, ')' :: rest => some (RE.eps, ')' :: rest)
  | _, '|' :: rest => some (RE.eps, '|' :: rest)
  | fuel + 1, cs =>
    match parseAtom fuel cs with
    | none => none
    | some (re, rest) =>
      let (re1, rest1) := applyQuants fuel re rest
      match parseSeq fuel rest1 with
      | some (re2, rest2) => some (RE.seq re1 re2, rest2)
      | none => none

/-- Parse an alternation of concatenations. -/
def parseAlt (fuel : Nat) (cs : List Char) : Option (RE × List Char) :=
  match fuel, cs with
  | 0, _ => none
  | fuel + 1, cs =>
    match parseSeq fuel cs with
    | none => none
    | some (re, '|' :: rest) =>
      match parseAlt fuel rest with
      | some (re2, rest2) => some (RE.alt re re2, rest2)
      | none => none
    | some (re, rest) => some (re, rest)

end

/-- Compile a pattern string, modelling `Regex::new`: `some` on the
supported-and-valid subset, `none` on invalid patterns (such as an unclosed
character class). -/
def compileRE (pattern : String) : Option RE :=
  match parseAlt (pattern.length * 4 + 8) pattern.data with
  | some (re, []) => some re
  | _ => none

/-- Parsed absolute URL, modelling `url::Url` restricted to the
`scheme://host[:port][/path][?query][#fragment]` shape with an `http` or
`https` scheme. -/
structure Url where
  scheme : String
  host : String
  port : Option Nat
  path : String
  query : Option String
  fragment : Option String
deriving DecidableEq, Repr

/-- Model of `str::is_empty`. -/
def strIsEmpty (s : String) : Bool := s.data.isEmpty

/-- Model of Rust `str::ends_with('/')`. -/
def endsWithSlash (s : String) : Bool := s.data.getLast? == some '/'

/-- Model of Rust `str::trim_start_matches('/')`: drop every leading `/`. -/
def trimLeadingSlashes (s : String) : String :=
  String.mk (s.data.dropWhile (fun c => c == '/'))

/-- Fragment part of a remainder that starts with `#`, if any. -/
def fragOf : List Char → Option String
  | '#' :: fs => some (String.mk fs)
  | _ => none

/-- Split the part of the URL after the authority into query and fragment. -/
def queryFragOf (rest : List Char) : Option String × Option String :=
  match rest with
  | '?' :: qs =>
    let q := qs.takeWhile (fun c => c != '#')
    (some (String.mk q), fragOf (qs.drop q.length))
  | '#' :: fs => (none, some (String.mk fs))
  | _ => (none, none)

/-- Split the part of the URL after the authority into path, query and
fragment; an absent path becomes `/`, as `Url::parse` normalizes it for
special schemes. -/
def splitPathQF (rem : List Char) : String × Option String × Option String :=
  match rem with
  | '/' :: ps =>
    let p := ps.takeWhile (fun c => c != '?' && c != '#')
    (String.mk ('/' :: p), queryFragOf (ps.drop p.length))
  | _ => ("/", queryFragOf rem)

/-- Assemble a `Url` from scheme, host, port and the raw remainder after the
authority. -/
def urlOfParts (scheme host : String) (port : Option Nat) (rem : List Char) :
    Url :=
  let pqf := splitPathQF rem
  { scheme := scheme, host := host, port := port,
    path := pqf.1, query := pqf.2.1, fragment := pqf.2.2 }

/-- Characters allowed in a scheme. -/
def schemeCharOk (c : Char) : Bool :=
  c.isAlpha || c.isDigit || c == '+' || c == '-' || c == '.'

/-- Scheme validity: nonempty, starts with a letter, scheme characters
only. -/
def schemeOk (cs : List Char) : Bool :=
  match cs with
  | [] => false
  | c :: _ => c.isAlpha && cs.all schemeCharOk

/-- Characters allowed in a host in this model. -/
def hostCharOk (c : Char) : Bool :=
  c.isAlpha || c.isDigit || c == '-' || c == '.' || c == '_'

/-- Host validity: nonempty and made of host characters. -/
def hostOk (cs : List Char) : Bool :=
  !cs.isEmpty && cs.all hostCharOk

/-- Default port of a special scheme, elided by the parser as `Url::parse`
does. -/
def defaultPort (scheme : String) : Nat :=
  if scheme = "https" then 443 else 80

/-- Parse the `:port` part of an authority: absent or empty means no port,
digits up to 65535 are accepted, anything else is invalid. -/
def parsePort (portCs : List Char) (scheme : String) : Option (Option Nat) :=
  match portCs with
  | [] => some none
  | ':' :: ds =>
    if ds.isEmpty then some none
    else if ds.all Char.isDigit then
      let v := ds.foldl (fun n c => n * 10 + (c.toNat - 48)) 0
      if v ≤ 65535 then
        if v = defaultPort scheme then some none else some (some v)
      else none
    else none
  | _ => none

/-- Decompose an absolute URL string into scheme, host, port and remainder,
or fail; models the analysis `Url::parse` performs on the shapes described
at `Url`. -/
def parseParts (s : String) :
    Option (String × String × Option Nat × List Char) :=
  let cs := s.data
  let schemeCs := cs.takeWhile (fun c => c != ':')
  match cs.drop schemeCs.length with
  | ':' :: '/' :: '/' :: after =>
    if schemeOk schemeCs then
      let scheme := String.mk (schemeCs.map Char.toLower)
      if scheme = "http" ∨ scheme = "https" then
        let authority := after.takeWhile
          (fun c => c != '/' && c != '?' && c != '#')
        let rem := after.drop authority.length
        let hostCs := authority.takeWhile (fun c => c != ':')
        let portCs := authority.drop hostCs.length
        if hostOk hostCs then
          match parsePort portCs scheme with
          | some port =>
            some (scheme, String.mk (hostCs.map Char.toLower), port, rem)
          | none => none
        else none
      else none
    else none
  | _ => none

/-- Model of `Url::parse` on the supported shape. -/
def urlParse (s : String) : Option Url :=
  (parseParts s).map (fun t => urlOfParts t.1 t.2.1 t.2.2.1 t.2.2.2)

/-- Model of `Url::set_path`: a path not starting with `/` gets one
prepended, as the crate does for URLs with a host. -/
def Url.set_path (u : Url) (p : String) : Url :=
  if p.data.head? == some '/' then { u with path := p }
  else { u with path := "/" ++ p }

/-- Render a port for serialization. -/
def portStr : Option Nat → String
  | none => ""
  | some p => ":" ++ Nat.repr p

/-- Render a query for serialization. -/
def queryStr : Option String → String
  | none => ""
  | some q => "?" ++ q

/-- Render a fragment for serialization. -/
def fragStr : Option String → String
  | none => ""
  | some f => "#" ++ f

/-- Model of `Url::to_string` on the supported shape. -/
def Url.toString (u : Url) : String :=
  u.scheme ++ "://" ++ u.host ++ portStr u.port ++ u.path ++
    queryStr u.query ++ fragStr u.fragment

/-- JSON values, the parsed form of a secret's string payload. -/
inductive Json where
  | null
  | bool (b : Bool)
  | num (n : Int)
  | str (s : String)
  | arr (xs : List Json)
  | obj (fields : List (String × Json))

/-- One collector configuration: name, base endpoint, optional
authentication string and optional compiled exclude pattern, mirroring the
Rust `Collector` struct. -/
structure Collector where
  name : String
  endpoint : String
  auth : Option String
  exclude : Option RE
deriving DecidableEq, Repr

/-- Look a field up in a JSON object, erring on duplicate keys as
`serde_json` does for derived structs. -/
def lookupField (fields : List (String × Json)) (key : String) :
    Except String (Option Json) :=
  match fields.filter (fun kv => kv.1 == key) with
  | [] => Except.ok none
  | [kv] => Except.ok (some kv.2)
  | _ => Except.error ("duplicate field " ++ key)

/-- Model of `deserialize_regex`: deserialize an `Option<String>` and
compile it; an invalid pattern is logged and degraded to `None` rather than
failing deserialization. -/
def deserialize_regex (v : Json) : Except String (Option RE) :=
  match v with
  | Json.null => Except.ok none
  | Json.str p => Except.ok (compileRE p)
  | _ => Except.error ("invalid type for exclude")

/-- Extract a required string field as serde does for a `String` field. -/
def requireStringField (fields : List (String × Json)) (key : String) :
    Except String String :=
  match lookupField fields key with
  | Except.error e => Except.error e
  | Except.ok none => Except.error ("missing field " ++ key)
  | Except.ok (some (Json.str s)) => Except.ok s
  | Except.ok (some _) => Except.error ("invalid type for " ++ key)

/-- Extract an `Option<String>` field as serde does: absent or null gives
`none`, a string gives `some`, any other shape is a type error. -/
def optionStringField (fields : List (String × Json)) (key : String) :
    Except String (Option String) :=
  match lookupField fields key with
  | Except.error e => Except.error e
  | Except.ok none => Except.ok none
  | Except.ok (some Json.null) => Except.ok none
  | Except.ok (some (Json.str s)) => Except.ok (some s)
  | Except.ok (some _) => Except.error ("invalid type for " ++ key)

/-- Model of serde deserialization of the `Collector` struct from a JSON
value: `name` and `endpoint` are required strings, `auth` is an optional
string, `exclude` defaults to `None` when absent and otherwise goes through
`deserialize_regex`; unknown fields are ignored. -/
def deserializeCollector (j : Json) : Except String Collector :=
  match j with
  | Json.obj fields =>
    match requireStringField fields "name" with
    | Except.error e => Except.error e
    | Except.ok nm =>
      match requireStringField fields "endpoint" with
      | Except.error e => Except.error e
      | Except.ok ep =>
        match optionStringField fields "auth" with
        | Except.error e => Except.error e
        | Except.ok au =>
          match lookupField fields "exclude" with
          | Except.error e => Except.error e
          | Except.ok none =>
            Except.ok { name := nm, endpoint := ep, auth := au, exclude := none }
          | Except.ok (some v) =>
            match deserialize_regex v with
            | Except.error e => Except.error e
            | Except.ok ex =>
              Except.ok { name := nm, endpoint := ep, auth := au, exclude := ex }
  | _ => Except.error ("invalid type: expected object")

/-- Container for the loaded collector configurations, mirroring the Rust
`Collectors` struct. -/
structure Collectors where
  items : List Collector
deriving DecidableEq, Repr

/-- Cache wrapper with TTL tracking, mirroring `CollectorsCache`;
`last_refresh` is the `Instant` of construction, modelled as a `Nat`
timestamp, and `ttl` is the duration in seconds. -/
structure CollectorsCache where
  inner : Collectors
  last_refresh : Nat
  ttl : Nat
deriving DecidableEq, Repr

/-- Model of `CollectorsCache::new`: the TTL comes from the
`COLLECTORS_CACHE_TTL_SECONDS` value (passed here as the observed
environment variable) when it parses as a number, else defaults to 300. -/
def CollectorsCache.new (collectors : Collectors) (ttlEnv : Option String)
    (now : Nat) : CollectorsCache :=
  { inner := collectors,
    last_refresh := now,
    ttl := (ttlEnv.bind String.toNat?).getD 300 }

/-- Model of `CollectorsCache::is_stale`: elapsed time since the last
refresh reaches the TTL. -/
def CollectorsCache.is_stale (c : CollectorsCache) (now : Nat) : Bool :=
  c.ttl ≤ now - c.last_refresh

/-- Model of `OnceLock::set`: fills an empty cell and reports success;
leaves a filled cell unchanged and reports failure. -/
def onceLockSet (cell : Option CollectorsCache) (v : CollectorsCache) :
    Bool × Option CollectorsCache :=
  match cell with
  | none => (true, some v)
  | some w => (false, some w)

/-- Model of `Collectors::init`.  The `COLLECTORS` cell is explicit state:
`sGet` is the cell observed by the `COLLECTORS.get()` at the top, `sSet` the
cell at the moment of the `COLLECTORS.set(...)` call (they differ only when
a concurrent initializer raced in between; when no race happens
`sSet = sGet`).  `fetched` is the outcome `fetch_collectors` would produce,
`ttlEnv` the TTL environment variable and `now` the current instant.
Returns the Rust `Result` paired with the final cell state. -/
def Collectors.init (sGet sSet : Option CollectorsCache)
    (fetched : Except String (List Collector)) (ttlEnv : Option String)
    (now : Nat) : Except String Unit × Option CollectorsCache :=
  match sGet with
  | some cache =>
    if cache.is_stale now then
      match fetched with
      | Except.error e => (Except.error e, sSet)
      | Except.ok items =>
        let newCache := CollectorsCache.new { items := items } ttlEnv now
        let r := onceLockSet sSet newCache
        (Except.ok (), r.2)
    else (Except.ok (), sSet)
  | none =>
    match fetched with
    | Except.error e => (Except.error e, sSet)
    | Except.ok items =>
      let cache := CollectorsCache.new { items := items } ttlEnv now
      let r := onceLockSet sSet cache
      if r.1 then (Except.ok (), r.2)
      else (Except.error ("Collectors cache already initialized"), r.2)

/-- Errors `construct_signal_endpoint` can return; these are exactly the
`InvalidEndpoint` cases of the design's error taxonomy, carrying the anyhow
context of the Rust code. -/
inductive RunErr where
  | invalidOriginal
  | invalidBase (endpoint : String)
deriving DecidableEq, Repr

/-- Model of `Collector::construct_signal_endpoint`: extract the signal
path from the original endpoint, parse the collector's base endpoint, slash-
terminate a non-slash-terminated base path, strip the signal path's leading
slashes and splice it onto the base. -/
def Collector.construct_signal_endpoint (c : Collector)
    (original_endpoint : String) : Except RunErr String :=
  match urlParse original_endpoint with
  | none => Except.error RunErr.invalidOriginal
  | some o =>
    match urlParse c.endpoint with
    | none => Except.error (RunErr.invalidBase c.endpoint)
    | some base0 =>
      let base1 :=
        if !(strIsEmpty base0.path) && !(endsWithSlash base0.path) then
          base0.set_path (base0.path ++ "/")
        else base0
      let signal_path := trimLeadingSlashes o.path
      let base2 := base1.set_path (base1.path ++ signal_path)
      Except.ok base2.toString

/-- Model of `Collector::should_exclude`. -/
def Collector.should_exclude (c : Collector) (log_group : String) : Bool :=
  match c.exclude with
  | some pattern => pattern.is_match log_group
  | none => false

/-- Map a fallible function over a list, stopping at the first error, as
collecting an iterator of `Result`s into `Result<Vec<_>>` does. -/
def mapExcept (f : α → Except ε β) : List α → Except ε (List β)
  | [] => Except.ok []
  | a :: rest =>
    match f a with
    | Except.error e => Except.error e
    | Except.ok b => (mapExcept f rest).map (fun bs => b :: bs)

/-- The collectors of a cache that are not excluded for a source, in
registry order (the filter inside `get_signal_endpoints`). -/
def nonExcluded (cache : CollectorsCache) (source : String) : List Collector :=
  cache.inner.items.filter (fun c => ! c.should_exclude source)

/-- Model of `Collectors::get_signal_endpoints`.  The `COLLECTORS` cell is
the explicit `st` argument; an empty cell makes the `.expect(...)` panic.
Returns the outcome paired with the final cell state (the function only
reads the cell). -/
def Collectors.get_signal_endpoints (st : Option CollectorsCache)
    (original_endpoint source : String) :
    Outcome RunErr (List Collector) × Option CollectorsCache :=
  match st with
  | none => (Outcome.panic ("Collectors cache not initialized"), none)
  | some cache =>
    match mapExcept
        (fun c => (c.construct_signal_endpoint original_endpoint).map
          (fun e => { c with endpoint := e }))
        (nonExcluded cache source) with
    | Except.ok ds => (Outcome.ok ds, some cache)
    | Except.error e => (Outcome.err e, some cache)

/-- One per-item error reported by `BatchGetSecretValue`. -/
structure ApiError where
  secret_id : Option String
  error_code : Option String
  message : Option String
deriving DecidableEq

/-- One secret value returned by `BatchGetSecretValue`; `secret_string` is
the parsed JSON payload when the secret has a string payload. -/
structure SecretValue where
  name : Option String
  secret_string : Option Json

/-- Response of `BatchGetSecretValue`: per-item errors alongside
successfully fetched values. -/
structure BatchGetResponse where
  errors : List ApiError
  secret_values : List SecretValue

/-- The collectors successfully deserialized from the secret values (the
push-on-success loop of `fetch_collectors`): values without a string payload
or whose payload fails to deserialize are dropped. -/
def usable_collectors (vals : List SecretValue) : List Collector :=
  vals.filterMap
    (fun v => v.secret_string.bind (fun j => (deserializeCollector j).toOption))

/-- Model of `fetch_collectors`: `key_prefix_env` is the observed
`COLLECTORS_SECRETS_KEY_PREFIX` variable and `response` the outcome of the
Secrets Manager call.  Absent prefix or a failed call error out; per-item
errors only abort when no secret value was returned; values that fail to
deserialize are dropped; zero usable collectors error out. -/
def fetch_collectors (key_prefix_env : Option String)
    (response : Except String BatchGetResponse) :
    Except String (List Collector) :=
  match key_prefix_env with
  | none => Except.error ("COLLECTORS_SECRETS_KEY_PREFIX must be set")
  | some _ =>
    match response with
    | Except.error e => Except.error e
    | Except.ok resp =>
      if !resp.errors.isEmpty && resp.secret_values.isEmpty then
        Except.error ("Failed to fetch any secrets. Check the logs for details.")
      else
        let collectors := usable_collectors resp.secret_values
        if collectors.isEmpty then
          Except.error ("No valid collectors found")
        else Except.ok collectors

/-- The usable collectors of a call outcome, empty when the call failed. -/
def usableOfResponse (r : Except String BatchGetResponse) : List Collector :=
  match r with
  | Except.ok resp => usable_collectors resp.secret_values
  | Except.error _ => []

deriving instance DecidableEq for Except

/-- Code-side base-path normalization step of `construct_signal_endpoint`
(append a slash only when the non-empty path does not already end with
one), abstracted for use in statements. -/
def normalizeBasePath (p : String) : String :=
  if !(strIsEmpty p) && !(endsWithSlash p) then p ++ "/" else p

/-- Follows the spec's words, for comparison with the code: normalize the
base path to end with exactly one trailing separator when non-empty. -/
def specNormalizeBase (p : String) : String :=
  if strIsEmpty p then p
  else String.mk ((p.data.reverse.dropWhile (fun c => c == '/')).reverse) ++ "/"

/-- Follows the spec's words, for comparison with the code: strip the
signal path's single leading separator. -/
def specStripLeadingOne (p : String) : String :=
  if p.data.head? == some '/' then String.mk p.data.tail else p

/-- Follows the spec's words, for comparison with the code: the resolved
destination endpoint as the specification describes it. -/
def specResolve (base original : String) : Option String :=
  match urlParse original, urlParse base with
  | some o, some u =>
    some (Url.toString
      { u with path := specNormalizeBase u.path ++ specStripLeadingOne o.path })
  | _, _ => none

/-- The identifying fields of a collector other than its endpoint. -/
def collectorKey (c : Collector) : String × Option String × Option RE :=
  (c.name, c.auth, c.exclude)

/-- Fixture: a collector named A. -/
def colA : Collector :=
  { name := "alpha", endpoint := "https://a.example", auth := none, exclude := none }

/-- Fixture: a collector named B, distinct from `colA`. -/
def colB : Collector :=
  { name := "beta", endpoint := "https://b.example", auth := none, exclude := none }

/-- Fixture: a cache holding `colA`, fetched at instant 0 with a 300s TTL,
hence stale at instant 1000. -/
def staleCacheA : CollectorsCache :=
  { inner := { items := [colA] }, last_refresh := 0, ttl := 300 }

/-- Fixture: the cache a concurrent winner installed. -/
def winnerCache : CollectorsCache :=
  { inner := { items := [colB] }, last_refresh := 5, ttl := 300 }

/-- Fixture: a collector whose exclude pattern matches `/aws/spans`. -/
def excludingCollector : Collector :=
  { name := "excl", endpoint := "https://c.example", auth := none,
    exclude := compileRE ("/aws/spans") }

/-- Fixture: a cache whose only collector excludes the source
`/aws/spans`. -/
def allExcludedCache : CollectorsCache :=
  { inner := { items := [excludingCollector] }, last_refresh := 0, ttl := 300 }

/-- Fixture: a correctly configured collector. -/
def goodCollector : Collector :=
  { name := "good", endpoint := "https://ok.example", auth := none, exclude := none }

/-- Fixture: a collector whose base endpoint does not parse. -/
def badEndpointCollector : Collector :=
  { name := "bad", endpoint := "not a url", auth := none, exclude := none }

/-- Fixture: a cache mixing a correct collector with one whose base
endpoint does not parse. -/
def mixedCache : CollectorsCache :=
  { inner := { items := [goodCollector, badEndpointCollector] },
    last_refresh := 0, ttl := 300 }

/-- Fixture: an excluded collector whose base endpoint would not even
parse. -/
def excludedBadCollector : Collector :=
  { name := "exclbad", endpoint := "not a url", auth := none,
    exclude := compileRE ("/aws/spans.*") }

/-- Fixture: a cache with one excluded (and unparseable) collector and one
included collector. -/
def fanoutCache : CollectorsCache :=
  { inner := { items := [excludedBadCollector, goodCollector] },
    last_refresh := 0, ttl := 300 }

/-- Fixture: the collector of `construct_signal_endpoint_resolution`'s
witness, from the repository's own test. -/
def testCollector : Collector :=
  { name := "test", endpoint := "https://collector.example.com", auth := none,
    exclude := none }

/-- Fixture: the parsed base URL of `testCollector`. -/
def testBaseUrl : Url :=
  { scheme := "https", host := "collector.example.com", port := none,
    path := "/", query := none, fragment := none }

/-- Fixture: the parsed original endpoint of the repository's test. -/
def testOriginalUrl : Url :=
  { scheme := "https", host := "original.com", port := none,
    path := "/v1/traces", query := none, fragment := none }

/-- Fixture: JSON payload of a well-formed collector secret. -/
def goodSecretJson : Json :=
  Json.obj [("name", Json.str "good"), ("endpoint", Json.str "https://ok.example")]

/-- Fixture: a batch response with one per-item error, one well-formed
secret and one secret whose payload is not a collector definition. -/
def batchResponseFixture : BatchGetResponse :=
  { errors := [{ secret_id := some "cfg/denied", error_code := some "AccessDenied",
                 message := some "denied" }],
    secret_values :=
      [{ name := some "cfg/good", secret_string := some goodSecretJson },
       { name := some "cfg/bad", secret_string := some (Json.str "oops") }] }

/-- Helper: mapping a fallible function that succeeds on every element
yields the list of successes. -/
theorem mapExcept_ok_of_forall {α β ε : Type} (f : α → Except ε β) (g : α → β)
    (l : List α) (hall : ∀ a ∈ l, f a = Except.ok (g a)) :
    mapExcept f l = Except.ok (l.map g) := by
  induction l with
  | nil => rfl
  | cons a rest ih =>
    have ha : f a = Except.ok (g a) := hall a (List.mem_cons_self a rest)
    have hrest : mapExcept f rest = Except.ok (rest.map g) :=
      ih (fun x hx => hall x (List.mem_cons_of_mem a hx))
    simp [mapExcept, ha, hrest, Except.map]

/-- Helper: a successful `mapExcept` run relates outputs to inputs
pointwise; any function of the outputs that an element-level fact equates
to a function of the inputs agrees on the mapped lists. -/
theorem mapExcept_ok_map_eq {α β γ ε : Type} (f : α → Except ε β) (g : β → γ)
    (h : α → γ) (hrel : ∀ a b, f a = Except.ok b → g b = h a) :
    ∀ (l : List α) (bs : List β), mapExcept f l = Except.ok bs →
      bs.map g = l.map h := by
  intro l
  induction l with
  | nil =>
    intro bs hbs
    simp [mapExcept] at hbs
    subst hbs
    rfl
  | cons a rest ih =>
    intro bs hbs
    simp only [mapExcept] at hbs
    cases hfa : f a with
    | error e => rw [hfa] at hbs; exact absurd hbs (by simp)
    | ok b =>
      rw [hfa] at hbs
      cases hrest : mapExcept f rest with
      | error e => rw [hrest] at hbs; simp [Except.map] at hbs
      | ok bs2 =>
        rw [hrest] at hbs
        simp only [Except.map, Except.ok.injEq] at hbs
        subst hbs
        simp [List.map, hrel a b hfa, ih bs2 hrest]

/-- Helper: if some element of the list fails, `mapExcept` fails. -/
theorem mapExcept_err_of_mem {α β ε : Type} (f : α → Except ε β) (l : List α)
    (a : α) (hmem : a ∈ l) (ha : ∃ e0, f a = Except.error e0) :
    ∃ e1, mapExcept f l = Except.error e1 := by
  induction l with
  | nil => cases hmem
  | cons x rest ih =>
    cases hfx : f x with
    | error e => exact ⟨e, by simp [mapExcept, hfx]⟩
    | ok b =>
      rcases List.mem_cons.mp hmem with hax | hax
      · subst hax
        rcases ha with ⟨e0, he0⟩
        rw [he0] at hfx
        cases hfx
      · rcases ih hax with ⟨e1, he1⟩
        exact ⟨e1, by simp [mapExcept, hfx, he1, Except.map]⟩

/-- Helper: the path produced by `splitPathQF` starts with a slash. -/
theorem splitPathQF_head (rem : List Char) :
    (splitPathQF rem).1.data.head? = some '/' := by
  unfold splitPathQF
  split
  · rfl
  · rfl

/-- Helper: any successfully parsed URL has a path starting with a slash
(as `Url::parse` guarantees for special schemes). -/
theorem urlParse_path_head (s : String) (u : Url) (h : urlParse s = some u) :
    u.path.data.head? = some '/' := by
  unfold urlParse at h
  rcases Option.map_eq_some'.mp h with ⟨t, _, hu⟩
  subst hu
  exact splitPathQF_head t.2.2.2

/-- Helper: appending a slash makes a string end with a slash. -/
theorem endsWithSlash_append_slash (p : String) :
    endsWithSlash (p ++ "/") = true := by
  simp [endsWithSlash, String.data_append]

/-- Helper: on parseable base and original endpoints,
`construct_signal_endpoint` succeeds, and its result is the base URL with
the slash-normalized base path spliced with the slash-stripped signal
path (scheme, host, port, query and fragment of the base unchanged). -/
theorem construct_eq_of_parses (c : Collector) (original : String) (u o : Url)
    (hb : urlParse c.endpoint = some u) (ho : urlParse original = some o) :
    c.construct_signal_endpoint original =
      Except.ok (Url.toString
        { u with path := normalizeBasePath u.path ++ trimLeadingSlashes o.path }) := by
  have hhead := urlParse_path_head c.endpoint u hb
  obtain ⟨tl, htl⟩ : ∃ tl, u.path.data = '/' :: tl := by
    cases hl : u.path.data with
    | nil => rw [hl] at hhead; cases hhead
    | cons a t =>
      rw [hl] at hhead
      have ha : a = '/' := by simpa using hhead
      exact ⟨t, by rw [ha]⟩
  have hne : strIsEmpty u.path = false := by simp [strIsEmpty, htl]
  unfold Collector.construct_signal_endpoint
  rw [ho, hb]
  cases hes : endsWithSlash u.path with
  | true =>
    have hap : (u.path ++ trimLeadingSlashes o.path).data.head? = some '/' := by
      rw [String.data_append, htl]; rfl
    simp [hne, hes, Url.set_path, hap, normalizeBasePath, hhead]
  | false =>
    have h1 : (u.path ++ "/").data.head? = some '/' := by
      rw [String.data_append, htl]; rfl
    have h2 : ((u.path ++ "/") ++ trimLeadingSlashes o.path).data.head? = some '/' := by
      rw [String.data_append, String.data_append, htl]; rfl
    simp [hne, hes, Url.set_path, h1, h2, normalizeBasePath, hhead]

/-- C1 (code_bug): the claim — and the code's own "Replace the old cache"
comment and "Refreshed collectors configuration" log — say a successful
fetch on a stale cache replaces the installed registry so that subsequent
reads observe the new configuration.  `OnceLock::set` on the already-filled
cell fails and its error is discarded, so at a stale cache holding `colA`
and a successful fetch of `[colB]`, `init` returns `Ok` but the cell still
holds the old cache.  The error half of the claim does hold: a failed
fetch propagates and the stale registry stays in place. -/
theorem init_stale_refresh_is_dropped :
    staleCacheA.is_stale 1000 = true
    ∧ Collectors.init (some staleCacheA) (some staleCacheA) (Except.ok [colB])
        none 1000 = (Except.ok (), some staleCacheA)
    ∧ Collectors.init (some staleCacheA) (some staleCacheA)
        (Except.error ("boom")) none 1000 =
        (Except.error ("boom"), some staleCacheA)
    ∧ colA ≠ colB := by decide

/-- C3 counterexample: a caller that observed the empty cell, fetched
successfully, and then lost the `OnceLock::set` race to a concurrent
winner gets the error "Collectors cache already initialized" from `init`
instead of completing without error as the claim states (the winner's
cache does stay installed). -/
theorem init_race_loser_errors :
    Collectors.init none (some winnerCache) (Except.ok [colA]) none 10 =
      (Except.error ("Collectors cache already initialized"), some winnerCache) := by
  decide

/-- C3 (amended): when initializers race on the empty cell, the first
writer's registry becomes and stays the canonical cache — a loser never
overwrites it — but a losing `init` call returns the error
"Collectors cache already initialized" rather than completing without
error; an unraced initial `init` installs the fetched registry and
succeeds. -/
theorem init_first_writer_wins (w : CollectorsCache) (items : List Collector)
    (ttlEnv : Option String) (now : Nat) :
    Collectors.init none (some w) (Except.ok items) ttlEnv now =
      (Except.error ("Collectors cache already initialized"), some w)
    ∧ Collectors.init none none (Except.ok items) ttlEnv now =
      (Except.ok (), some (CollectorsCache.new { items := items } ttlEnv now)) := by
  constructor <;> rfl

/-- C4 counterexample: `get_signal_endpoints` called on the uninitialized
cell panics through `.expect("Collectors cache not initialized")`; the
outcome is a panic, not a returned error value, at this concrete input. -/
theorem resolve_uninitialized_panics_not_err :
    (Collectors.get_signal_endpoints none ("https://original.com/v1/traces")
        ("/aws/lambda/fn")).1 =
      Outcome.panic ("Collectors cache not initialized")
    ∧ Outcome.isReturnedErr
        (Collectors.get_signal_endpoints none ("https://original.com/v1/traces")
          ("/aws/lambda/fn")).1 = false := by decide

/-- C4 (amended): every call to `get_signal_endpoints` made before any
successful init panics with "Collectors cache not initialized" (aborting
the call rather than returning a NotInitialized error value), and leaves
the cell empty. -/
theorem resolve_uninitialized_panics (original source : String) :
    (Collectors.get_signal_endpoints none original source).1 =
      Outcome.panic ("Collectors cache not initialized")
    ∧ (Collectors.get_signal_endpoints none original source).2 = none := by
  constructor <;> rfl

/-- C9: deserializing a collector definition with `auth` omitted or null
yields an absent auth, while an explicit empty-string `auth` yields a
present-but-empty value, not normalized to absent. -/
theorem collector_auth_deserialization (n e : String) :
    deserializeCollector (Json.obj [("name", Json.str n),
        ("endpoint", Json.str e)]) =
      Except.ok { name := n, endpoint := e, auth := none, exclude := none }
    ∧ deserializeCollector (Json.obj [("name", Json.str n),
        ("endpoint", Json.str e), ("auth", Json.null)]) =
      Except.ok { name := n, endpoint := e, auth := none, exclude := none }
    ∧ deserializeCollector (Json.obj [("name", Json.str n),
        ("endpoint", Json.str e), ("auth", Json.str "")]) =
      Except.ok { name := n, endpoint := e, auth := some "", exclude := none } :=
  ⟨rfl, rfl, rfl⟩

/-- C5 (amended): for a base endpoint parsing to `u` and an original
endpoint parsing to `o`, the resolved endpoint is `u` with a trailing
separator appended to its path exactly when the path does not already end
with one (extra existing trailing separators are kept, not collapsed to
exactly one), concatenated with the signal path stripped of all its
leading separators, preserving scheme, host, port, query and fragment of
the base; and the result is unchanged when the base is replaced by the
same URL with a trailing slash appended to its slashless path. -/
theorem construct_signal_endpoint_resolution (c : Collector) (original : String)
    (u o : Url) (hb : urlParse c.endpoint = some u)
    (ho : urlParse original = some o) :
    c.construct_signal_endpoint original =
      Except.ok (Url.toString
        { u with path := normalizeBasePath u.path ++ trimLeadingSlashes o.path })
    ∧ (∀ (c2 : Collector) (u2 : Url), urlParse c2.endpoint = some u2 →
        u2 = { u with path := u.path ++ "/" } → endsWithSlash u.path = false →
        c2.construct_signal_endpoint original = c.construct_signal_endpoint original) := by
  refine ⟨construct_eq_of_parses c original u o hb ho, ?_⟩
  intro c2 u2 hb2 hu2 hes
  rw [construct_eq_of_parses c2 original u2 o hb2 ho,
      construct_eq_of_parses c original u o hb ho, hu2]
  have hne : strIsEmpty u.path = false := by
    have hhead := urlParse_path_head c.endpoint u hb
    cases hl : u.path.data with
    | nil => rw [hl] at hhead; cases hhead
    | cons a t => simp [strIsEmpty, hl]
  have h1 : normalizeBasePath (u.path ++ "/") = u.path ++ "/" := by
    simp [normalizeBasePath, endsWithSlash_append_slash]
  have h2 : normalizeBasePath u.path = u.path ++ "/" := by
    simp [normalizeBasePath, hne, hes]
  rw [h1, h2]

/-- C5 counterexample: the code keeps extra trailing separators of the
base path (it does not normalize to exactly one) and strips all leading
separators of the signal path (not just one), so the resolved endpoint
differs from the claim's wording at these inputs. -/
theorem construct_signal_endpoint_spec_words_mismatch :
    Collector.construct_signal_endpoint
        { name := "t", endpoint := "https://host/base//", auth := none,
          exclude := none } ("https://orig.com/v1/traces") =
      Except.ok ("https://host/base//v1/traces")
    ∧ specResolve ("https://host/base//") ("https://orig.com/v1/traces") =
      some ("https://host/base/v1/traces")
    ∧ Collector.construct_signal_endpoint
        { name := "t", endpoint := "https://host", auth := none,
          exclude := none } ("https://orig.com//v1/traces") =
      Except.ok ("https://host/v1/traces")
    ∧ specResolve ("https://host") ("https://orig.com//v1/traces") =
      some ("https://host//v1/traces") := by decide

/-- C5 witness: the repository's own test case, resolved through
`construct_signal_endpoint_resolution`. -/
theorem construct_signal_endpoint_resolution_witness :
    Collector.construct_signal_endpoint testCollector
        ("https://original.com/v1/traces") =
      Except.ok ("https://collector.example.com/v1/traces") := by
  have h := construct_signal_endpoint_resolution testCollector
    ("https://original.com/v1/traces") testBaseUrl testOriginalUrl
    (by decide) (by decide)
  exact h.1.trans (by decide)

/-- C2 (amended): when at least one collector survives exclusion, an
unparseable original endpoint or any surviving collector with an
unparseable base endpoint makes the whole `get_signal_endpoints` call
return an error (the `RunErr` type has exactly the two InvalidEndpoint
shapes), yielding no destinations even for correctly configured
collectors; but when every collector is excluded the call returns an
empty success even if the original endpoint is unparseable. -/
theorem get_signal_endpoints_fail_closed (cache : CollectorsCache)
    (original source : String) (hne : nonExcluded cache source ≠ [])
    (hbad : urlParse original = none ∨
      ∃ c ∈ nonExcluded cache source, urlParse c.endpoint = none) :
    ∃ e, (Collectors.get_signal_endpoints (some cache) original source).1 =
      Outcome.err e := by
  obtain ⟨a, hmem, ha⟩ :
      ∃ a ∈ nonExcluded cache source,
        ∃ e0, (a.construct_signal_endpoint original).map
          (fun e => { a with endpoint := e }) = Except.error e0 := by
    rcases hbad with horig | ⟨c, hc, hcend⟩
    · rcases List.exists_mem_of_ne_nil _ hne with ⟨a, hmem⟩
      exact ⟨a, hmem, RunErr.invalidOriginal,
        by simp [Collector.construct_signal_endpoint, horig, Except.map]⟩
    · cases horig : urlParse original with
      | none =>
        exact ⟨c, hc, RunErr.invalidOriginal,
          by simp [Collector.construct_signal_endpoint, horig, Except.map]⟩
      | some o =>
        exact ⟨c, hc, RunErr.invalidBase c.endpoint,
          by simp [Collector.construct_signal_endpoint, horig, hcend, Except.map]⟩
  rcases mapExcept_err_of_mem
      (fun c => (c.construct_signal_endpoint original).map
        (fun e => { c with endpoint := e }))
      (nonExcluded cache source) a hmem ha with ⟨e1, he1⟩
  exact ⟨e1, by simp [Collectors.get_signal_endpoints, he1]⟩

/-- C2 counterexample: with every collector excluded for the source and an
original endpoint that does not parse, `get_signal_endpoints` returns an
empty success rather than failing with an InvalidEndpoint error. -/
theorem get_signal_endpoints_all_excluded_ok_on_bad_original :
    (Collectors.get_signal_endpoints (some allExcludedCache) ("not a url")
        ("/aws/spans")).1 = Outcome.ok []
    ∧ urlParse ("not a url") = none
    ∧ excludingCollector.should_exclude ("/aws/spans") = true := by decide

/-- C2 witness: a registry mixing a good collector with one whose base
endpoint does not parse makes the whole call return an error. -/
theorem get_signal_endpoints_fail_closed_witness :
    Outcome.isReturnedErr
      (Collectors.get_signal_endpoints (some mixedCache)
        ("https://original.com/v1/traces") ("any")).1 = true := by
  obtain ⟨e, he⟩ := get_signal_endpoints_fail_closed mixedCache
    ("https://original.com/v1/traces") ("any") (by decide)
    (Or.inr ⟨badEndpointCollector, by decide, by decide⟩)
  rw [he]
  rfl

/-- C6: when every non-excluded collector resolves successfully, the call
returns, in registry order, exactly one resolved destination per
non-excluded collector; collectors whose exclude pattern matches the
source are skipped without error, and when every collector is excluded
the result is an empty success, not an error. -/
theorem get_signal_endpoints_fanout (cache : CollectorsCache)
    (original source : String) :
    ((∀ c ∈ nonExcluded cache source,
        (c.construct_signal_endpoint original).isOk = true) →
      (Collectors.get_signal_endpoints (some cache) original source).1 =
        Outcome.ok ((nonExcluded cache source).map (fun c =>
          { c with endpoint :=
              ((c.construct_signal_endpoint original).toOption).getD c.endpoint })))
    ∧ (nonExcluded cache source = [] →
        (Collectors.get_signal_endpoints (some cache) original source).1 =
          Outcome.ok []) := by
  constructor
  · intro hall
    have hok : mapExcept (fun c => (c.construct_signal_endpoint original).map
        (fun e => { c with endpoint := e })) (nonExcluded cache source) =
        Except.ok ((nonExcluded cache source).map (fun c =>
          { c with endpoint :=
              ((c.construct_signal_endpoint original).toOption).getD c.endpoint })) := by
      apply mapExcept_ok_of_forall
      intro a hmem
      have hisok := hall a hmem
      cases hca : a.construct_signal_endpoint original with
      | error e => rw [hca] at hisok; simp [Except.isOk, Except.toBool] at hisok
      | ok ep => simp [hca, Except.map, Except.toOption]
    simp [Collectors.get_signal_endpoints, hok]
  · intro hnil
    simp [Collectors.get_signal_endpoints, hnil, mapExcept]

/-- C6 witness: a cache with one excluded collector (whose endpoint would
not even parse) and one included collector fans out to exactly the
included collector's resolved destination. -/
theorem get_signal_endpoints_fanout_witness :
    (Collectors.get_signal_endpoints (some fanoutCache)
        ("https://original.com/v1/traces") ("/aws/spans/x")).1 =
      Outcome.ok [{ name := "good", endpoint := "https://ok.example/v1/traces",
                    auth := none, exclude := none }] := by
  have h := (get_signal_endpoints_fanout fanoutCache
    ("https://original.com/v1/traces") ("/aws/spans/x")).1 (by decide)
  exact h.trans (by decide)

/-- C10: every destination a successful `get_signal_endpoints` call
returns keeps its source collector's name, auth and exclude values, only
the endpoint field is rewritten to the resolved signal URL, and the call
leaves the cached registry cell unchanged. -/
theorem get_signal_endpoints_frame (cache : CollectorsCache)
    (original source : String) (ds : List Collector)
    (h : (Collectors.get_signal_endpoints (some cache) original source).1 =
      Outcome.ok ds) :
    ds.map collectorKey = (nonExcluded cache source).map collectorKey
    ∧ ds.map (fun c => c.endpoint) = (nonExcluded cache source).map (fun c =>
        ((c.construct_signal_endpoint original).toOption).getD c.endpoint)
    ∧ (Collectors.get_signal_endpoints (some cache) original source).2 =
      some cache := by
  cases hm : mapExcept (fun c => (c.construct_signal_endpoint original).map
      (fun e => { c with endpoint := e })) (nonExcluded cache source) with
  | error e => simp [Collectors.get_signal_endpoints, hm] at h
  | ok bs =>
    simp only [Collectors.get_signal_endpoints, hm, Outcome.ok.injEq] at h
    subst h
    refine ⟨?_, ?_, by simp [Collectors.get_signal_endpoints, hm]⟩
    · refine mapExcept_ok_map_eq _ _ _ ?_ _ _ hm
      intro a b hab
      cases hca : a.construct_signal_endpoint original with
      | error e => rw [hca] at hab; simp [Except.map] at hab
      | ok ep =>
        rw [hca] at hab
        simp only [Except.map, Except.ok.injEq] at hab
        subst hab
        rfl
    · refine mapExcept_ok_map_eq _ _ _ ?_ _ _ hm
      intro a b hab
      cases hca : a.construct_signal_endpoint original with
      | error e => rw [hca] at hab; simp [Except.map] at hab
      | ok ep =>
        rw [hca] at hab
        simp only [Except.map, Except.ok.injEq] at hab
        subst hab
        simp [hca, Except.toOption]

/-- C10 witness: concrete fan-out preserving name, auth and exclude, with
the cell unchanged. -/
theorem get_signal_endpoints_frame_witness :
    ([{ name := "good", endpoint := "https://ok.example/v1/traces",
        auth := none, exclude := none }] : List Collector).map collectorKey =
      (nonExcluded fanoutCache ("/aws/spans/x")).map collectorKey
    ∧ (Collectors.get_signal_endpoints (some fanoutCache)
        ("https://original.com/v1/traces") ("/aws/spans/x")).2 =
      some fanoutCache := by
  have h := get_signal_endpoints_frame fanoutCache
    ("https://original.com/v1/traces") ("/aws/spans/x")
    [{ name := "good", endpoint := "https://ok.example/v1/traces",
       auth := none, exclude := none }] (by decide)
  exact ⟨h.1, h.2.2⟩

/-- C7: `fetch_collectors` fails exactly when the name-prefix variable is
unset, the secret-store call fails entirely, or the set of usable
collector definitions is empty; on success the result is exactly the
usable definitions (per-item fetch errors tolerated once a value is
returned, undeserializable values dropped without aborting the batch). -/
theorem fetch_collectors_error_policy (p : Option String)
    (r : Except String BatchGetResponse) :
    ((fetch_collectors p r).isOk = false ↔
      (p = none ∨ r.isOk = false ∨ usableOfResponse r = []))
    ∧ (∀ cs, fetch_collectors p r = Except.ok cs → cs = usableOfResponse r) := by
  cases p with
  | none => simp [fetch_collectors, Except.isOk, Except.toBool]
  | some pre =>
    cases r with
    | error e =>
      simp [fetch_collectors, usableOfResponse, Except.isOk, Except.toBool]
    | ok resp =>
      constructor
      · simp only [fetch_collectors, usableOfResponse]
        by_cases h1 : (!resp.errors.isEmpty && resp.secret_values.isEmpty) = true
        · have hpair : (!resp.errors.isEmpty) = true ∧
              resp.secret_values.isEmpty = true := by simpa using h1
          have hv : resp.secret_values = [] := List.isEmpty_iff.mp hpair.2
          rw [if_pos h1]
          simp [hv, usable_collectors, Except.isOk, Except.toBool]
        · rw [if_neg h1]
          by_cases h2 : (usable_collectors resp.secret_values).isEmpty = true
          · have hu : usable_collectors resp.secret_values = [] :=
              List.isEmpty_iff.mp h2
            rw [if_pos h2]
            simp [hu, Except.isOk, Except.toBool]
          · have hu : usable_collectors resp.secret_values ≠ [] := by
              intro hnil
              exact h2 (by simp [hnil])
            rw [if_neg h2]
            simp [hu, Except.isOk, Except.toBool]
      · intro cs hcs
        simp only [fetch_collectors] at hcs
        by_cases h1 : (!resp.errors.isEmpty && resp.secret_values.isEmpty) = true
        · rw [if_pos h1] at hcs; cases hcs
        · rw [if_neg h1] at hcs
          by_cases h2 : (usable_collectors resp.secret_values).isEmpty = true
          · rw [if_pos h2] at hcs; cases hcs
          · rw [if_neg h2] at hcs
            simp only [usableOfResponse]
            injection hcs with h
            exact h.symm

/-- C7 witness: a batch with one per-item error, one well-formed secret
and one malformed secret loads exactly the well-formed collector. -/
theorem fetch_collectors_error_policy_witness :
    fetch_collectors (some ("cfg/")) (Except.ok batchResponseFixture) =
      Except.ok [goodCollector]
    ∧ ([goodCollector] : List Collector) =
      usableOfResponse (Except.ok batchResponseFixture) := by
  have h := (fetch_collectors_error_policy (some ("cfg/"))
    (Except.ok batchResponseFixture)).2 [goodCollector] (by decide)
  exact ⟨by decide, h⟩

/-- C8: a syntactically invalid exclude pattern never fails the collector
definition's deserialization — `deserialize_regex` degrades it to an
absent pattern — and `should_exclude` for such a collector is false on
every source string. -/
theorem invalid_exclude_regex_degrades (p : String) (hp : compileRE p = none)
    (nm ep : String) (au : Option String) (src : String) :
    deserialize_regex (Json.str p) = Except.ok none
    ∧ deserializeCollector (Json.obj [("name", Json.str nm),
        ("endpoint", Json.str ep), ("exclude", Json.str p)]) =
      Except.ok { name := nm, endpoint := ep, auth := none, exclude := none }
    ∧ Collector.should_exclude
        { name := nm, endpoint := ep, auth := au, exclude := none } src = false := by
  refine ⟨by simp [deserialize_regex, hp], ?_, rfl⟩
  have hstep : deserializeCollector (Json.obj [("name", Json.str nm),
      ("endpoint", Json.str ep), ("exclude", Json.str p)]) =
      Except.ok { name := nm, endpoint := ep, auth := none,
                  exclude := compileRE p } := rfl
  rw [hstep, hp]

/-- C8 witness: the repository's own invalid pattern, an unclosed
character class. -/
theorem invalid_exclude_regex_degrades_witness :
    compileRE ("[invalid regex") = none
    ∧ deserializeCollector (Json.obj [("name", Json.str "test"),
        ("endpoint", Json.str "https://collector.example.com"),
        ("exclude", Json.str "[invalid regex")]) =
      Except.ok { name := "test", endpoint := "https://collector.example.com",
                  auth := none, exclude := none } := by
  refine ⟨by decide, ?_⟩
  exact (invalid_exclude_regex_degrades ("[invalid regex") (by decide) "test"
    ("https://collector.example.com") none ("/aws/spans")).2.1
